import Mathlib

/-!
Shallow embedding of the K4l3id0 mining bot (src/src/services/MiningCoordinator.js,
src/src/utils/utils.js, src/src/config/constants.js) and proofs about its
session-consistency and coordination behaviour.

Conventions of the embedding:
* JavaScript strings are modelled as `List Char` (`Str`), so that every string
  operation the source uses (trim, startsWith, toLowerCase, split on newline,
  concatenation) is an executable Lean function on character lists.
* Instants (`Date.now()`, ISO timestamps) are modelled as `Int` milliseconds;
  the source round-trips timestamps through ISO strings losslessly at ms
  precision, so a single integer clock models both representations.
* JavaScript numbers carrying balances/bonuses are modelled as `Rat`.
* Network calls are modelled by their outcomes: a request that exhausted its
  retries is an `Except.error`, a delivered response is `Except.ok` carrying
  the decoded body.
* The file system (session store) is modelled as the optional content of the
  agent's session file: `Option SessionRecord`, `none` meaning the file is
  absent or unparsable (the source's `loadSession` treats both as "no session").
-/

deriving instance DecidableEq for Except

/-- JavaScript string, modelled as its sequence of characters. -/
abbrev Str := List Char

/-- Model of JavaScript `String.prototype.trim`: strip leading and trailing
whitespace. -/
def jsTrim (s : Str) : Str :=
  ((s.dropWhile Char.isWhitespace).reverse.dropWhile Char.isWhitespace).reverse

/-- Model of JavaScript `s.startsWith(p)`. -/
def jsStartsWith (s p : Str) : Bool :=
  p.isPrefixOf s

/-- Model of JavaScript `String.prototype.toLowerCase` (ASCII, which is all
that hex addresses contain). -/
def jsToLowerCase (s : Str) : Str :=
  s.map Char.toLower

/-- Model of JavaScript `s.split('\n')`. -/
def jsSplitNewline (s : Str) : List Str :=
  List.splitOn '\n' s

/-- Model of Node's `path.join` for the two-argument uses in the source. -/
def pathJoin (a b : Str) : Str :=
  a ++ ['/'] ++ b

/-- The literal `"session"` (directory name used for the session store). -/
def sessionDirName : Str := ['s', 'e', 's', 's', 'i', 'o', 'n']

/-- The literal `".json"` appended to the wallet to form the session file name. -/
def jsonSuffix : Str := ['.', 'j', 's', 'o', 'n']

namespace MINING_CONFIG

/-- `MINING_CONFIG.DEFAULT_HASHRATE = 75.5` (src/src/config/constants.js). -/
def DEFAULT_HASHRATE : Rat := ⟨151, 2, by decide, by decide⟩

/-- `MINING_CONFIG.EARNINGS_RATE = 0.0001` (src/src/config/constants.js). -/
def EARNINGS_RATE : Rat := ⟨1, 10000, by decide, by decide⟩

/-- `MINING_CONFIG.UPDATE_INTERVAL = 30000` ms (src/src/config/constants.js). -/
def UPDATE_INTERVAL : Nat := 30000

end MINING_CONFIG

/-- The `earnings` object held by a bot and stored inside a session record:
`{ total: number }`. -/
structure Earnings where
  total : Rat
deriving Repr, DecidableEq

/-- The bot's `miningState` (the fields the session logic reads and writes;
`worker` and `pool` are constant strings never read by the core logic). -/
structure MiningState where
  isActive : Bool
  startTime : Option Int
  lastUpdate : Option Int
deriving Repr, DecidableEq

/-- A session file's JSON document: `{ startTime, earnings, referralBonus }`
(written by `saveSession`, read by `loadSession`). -/
structure SessionRecord where
  startTime : Option Int
  earnings : Earnings
  referralBonus : Rat
deriving Repr, DecidableEq

/-- The `userData` object of a registration-check response. Fields are
optional; the source reads them with `?.` and `|| 0`. -/
structure RegUserData where
  balance : Option Rat
  referralBonus : Option Rat
deriving Repr, DecidableEq

/-- Body of a `GET /check-registration` response:
`{ isRegistered: bool, userData?: { balance, referralBonus } }`. -/
structure RegResponse where
  isRegistered : Bool
  userData : Option RegUserData
deriving Repr, DecidableEq

/-- Body of a `POST /update-balance` response: `{ success: bool, balance }`. -/
structure UpdateResponse where
  success : Bool
  balance : Rat
deriving Repr, DecidableEq

/-- In-memory state of one `KaleidoMiningBot` (the fields of the class that
the session/coordination logic uses). -/
structure BotState where
  wallet : Str
  botIndex : Nat
  proxy : Option Str
  sessionFile : Str
  currentEarnings : Earnings
  miningState : MiningState
  referralBonus : Rat
  hashrate : Rat
deriving Repr, DecidableEq

/-- A loaded credential entry `{ privateKey, proxy }` produced by
`loadPrivateKeysAndProxies`. -/
structure CredentialEntry where
  privateKey : Str
  proxy : Option Str
deriving Repr, DecidableEq

namespace KaleidoMiningBot

/-- The `KaleidoMiningBot` constructor (src/src/services/MiningCoordinator.js
lines 190-222): lowercases the wallet for `this.wallet`, but builds
`this.sessionFile` from the constructor argument `wallet` as passed
(`path.join(sessionDir, wallet + ".json")`), zero earnings and bonus,
inactive mining state, default hashrate. -/
def new (rootDir : Str) (wallet : Str) (botIndex : Nat) (proxy : Option Str) :
    BotState :=
  { wallet := jsToLowerCase wallet
    botIndex := botIndex
    proxy := proxy
    sessionFile := pathJoin (pathJoin rootDir sessionDirName) (wallet ++ jsonSuffix)
    currentEarnings := { total := 0 }
    miningState := { isActive := false, startTime := none, lastUpdate := none }
    referralBonus := 0
    hashrate := MINING_CONFIG.DEFAULT_HASHRATE }

/-- `loadSession` (lines 249-261): on a readable, parsable session file copy
`startTime`, `earnings` and `referralBonus` verbatim into the bot and report
`true`; on any failure report `false` and leave the bot untouched. -/
def loadSession (stored : Option SessionRecord) (b : BotState) :
    Bool × BotState :=
  match stored with
  | some session =>
      (true,
        { b with
          miningState := { b.miningState with startTime := session.startTime }
          currentEarnings := session.earnings
          referralBonus := session.referralBonus })
  | none => (false, b)

/-- `saveSession` (lines 266-280): the document written to the session file. -/
def saveSession (b : BotState) : SessionRecord :=
  { startTime := b.miningState.startTime
    earnings := b.currentEarnings
    referralBonus := b.referralBonus }

/-- `initialize` (lines 285-334). `reg` is the outcome of the registration
check after retries (`Except.error` when retries were exhausted), `stored`
the session file's content, `now` the current instant. On a response with
`isRegistered` false the method throws and the catch leaves the bot inactive
(`Failed`); otherwise it loads the session if one exists, else seeds
`referralBonus`/`currentEarnings.total` from `userData` (`|| 0`) and sets
`startTime := now`, and finally sets `isActive := true` and
`lastUpdate := now`. -/
def initMining (reg : Except Unit RegResponse) (stored : Option SessionRecord)
    (now : Int) (b : BotState) : BotState :=
  match reg with
  | .error _ => { b with miningState := { b.miningState with isActive := false } }
  | .ok r =>
      if r.isRegistered = false then
        { b with miningState := { b.miningState with isActive := false } }
      else
        match loadSession stored b with
        | (hasSession, b1) =>
            let b2 :=
              if hasSession then b1
              else
                { b1 with
                  referralBonus := (r.userData.bind RegUserData.referralBonus).getD 0
                  currentEarnings := { total := (r.userData.bind RegUserData.balance).getD 0 }
                  miningState := { b1.miningState with startTime := some now } }
            { b2 with
              miningState :=
                { b2.miningState with isActive := true, lastUpdate := some now } }

/-- One run of the `retryRequest` loop (lines 339-360), by remaining
iterations. `requestFn j` is the outcome of the `j`-th invocation of the
underlying request (0-based). Returns the value the loop produces (`none`
when the loop body never runs), the number of invocations made, and the list
of delays (ms) slept between attempts, in order. The source sleeps
`2000 * (i + 1)` ms after failed attempt `i` unless it was the last. -/
def retryRequestGo {ε α : Type} (requestFn : Nat → Except ε α) (i : Nat) :
    Nat → Option (Except ε α) × Nat × List Nat
  | 0 => (none, 0, [])
  | remaining + 1 =>
      match requestFn i with
      | .ok a => (some (.ok a), 1, [])
      | .error e =>
          if remaining = 0 then
            (some (.error e), 1, [])
          else
            match retryRequestGo requestFn (i + 1) remaining with
            | (res, count, delays) => (res, count + 1, 2000 * (i + 1) :: delays)

/-- `retryRequest` (lines 339-360) with attempt budget `retries`
(source default 3). -/
def retryRequest {ε α : Type} (requestFn : Nat → Except ε α)
    (retries : Nat := 3) : Option (Except ε α) × Nat × List Nat :=
  retryRequestGo requestFn 0 retries

/-- `calculateSessionEarnings` (lines 373-379): earnings for the window since
`lastUpdate` (falling back to `startTime`, and to 0 when both are null, as
JavaScript arithmetic does with `null`), and the state with `lastUpdate`
advanced to `now`. The advance happens unconditionally, before any
submission. -/
def calculateSessionEarnings (now : Int) (b : BotState) : Rat × BotState :=
  let lastMs : Int :=
    match b.miningState.lastUpdate with
    | some t => t
    | none => b.miningState.startTime.getD 0
  let timeElapsed : Rat := ((now - lastMs : Int) : Rat) / 1000
  let earnings :=
    b.hashrate * timeElapsed * MINING_CONFIG.EARNINGS_RATE * (1 + b.referralBonus)
  (earnings,
    { b with miningState := { b.miningState with lastUpdate := some now } })

/-- Result of one `updateBalance` cycle: the bot afterwards, the session
file's content afterwards, whether `saveSession` ran, and the session-delta
submitted in the request payload. -/
structure UpdateResult where
  bot : BotState
  store : Option SessionRecord
  saved : Bool
  submittedSession : Rat
deriving Repr, DecidableEq

/-- `updateBalance` (lines 384-428). `resp` is the outcome of the
`POST /update-balance` after retries. On a delivered response with
`success = true` the bot adopts `response.data.balance` as
`currentEarnings.total` and persists via `saveSession`; on `success = false`
or exhausted retries it only logs: no save, no earnings change. -/
def updateBalance (now : Int) (resp : Except Unit UpdateResponse)
    (b : BotState) (store : Option SessionRecord) : UpdateResult :=
  match calculateSessionEarnings now b with
  | (sessionEarnings, b1) =>
      match resp with
      | .ok r =>
          if r.success then
            let b2 := { b1 with currentEarnings := { total := r.balance } }
            { bot := b2
              store := some (saveSession b2)
              saved := true
              submittedSession := sessionEarnings }
          else
            { bot := b1, store := store, saved := false
              submittedSession := sessionEarnings }
      | .error _ =>
          { bot := b1, store := store, saved := false
            submittedSession := sessionEarnings }

/-- Whether an `updateBalance` cycle failed: retries exhausted, or the server
replied `success = false`. -/
def updateRejected : Except Unit UpdateResponse → Bool
  | .error _ => true
  | .ok r => !r.success

/-- The guard of the `while` loop in `startMiningLoop` (line 452): the loop
runs another iteration exactly when `miningState.isActive` still holds. -/
def miningLoopContinues (b : BotState) : Bool :=
  b.miningState.isActive

/-- Fold a list of update cycles (instant and response outcome per cycle)
over bot and session file, as consecutive iterations of the report loop do. -/
def runUpdates (b : BotState) (store : Option SessionRecord) :
    List (Int × Except Unit UpdateResponse) → BotState × Option SessionRecord
  | [] => (b, store)
  | (now, resp) :: rest =>
      match updateBalance now resp b store with
      | u => runUpdates u.bot u.store rest

/-- The value of `currentEarnings.total` observed after each cycle of a list
of update cycles. -/
def totalsTrace (b : BotState) (store : Option SessionRecord) :
    List (Int × Except Unit UpdateResponse) → List Rat
  | [] => []
  | (now, resp) :: rest =>
      match updateBalance now resp b store with
      | u => u.bot.currentEarnings.total :: totalsTrace u.bot u.store rest

/-- The balances the server returned across a list of cycles, one per
successfully delivered `success = true` response. -/
def serverBalances : List (Int × Except Unit UpdateResponse) → List Rat
  | [] => []
  | (_, resp) :: rest =>
      match resp with
      | .ok r => if r.success then r.balance :: serverBalances rest
                 else serverBalances rest
      | .error _ => serverBalances rest

end KaleidoMiningBot

/-- `getWalletFromPrivateKey` (src/src/utils/utils.js lines 83-95): normalize
the key by prepending `0x` when missing, then derive the address. The
derivation itself (`ethers.Wallet`) is external; it is the parameter
`derive`, `none` modelling a thrown derivation error. -/
def getWalletFromPrivateKey (derive : Str → Option Str) (privateKey : Str) :
    Option Str :=
  let formattedKey :=
    if jsStartsWith privateKey ['0', 'x'] then privateKey
    else ['0', 'x'] ++ privateKey
  derive formattedKey

namespace MiningCoordinator

/-- The filter applied to both input files' lines (lines 44-50):
keep a trimmed line when it is non-empty and does not start with `#`. -/
def keepLine (line : Str) : Bool :=
  !line.isEmpty && !jsStartsWith line ['#']

/-- Split a file's content into trimmed, kept lines (lines 44-50). -/
def parsedLines (data : Str) : List Str :=
  ((jsSplitNewline data).map jsTrim).filter keepLine

/-- The proxy list `loadPrivateKeysAndProxies` works with: empty when the
proxy file was unreadable (`proxyData` stays `''`) or its content is the
empty string, else its kept lines. -/
def loadedProxies (proxyData : Option Str) : List Str :=
  match proxyData with
  | some d => if d.isEmpty then [] else parsedLines d
  | none => []

/-- `loadPrivateKeysAndProxies` (lines 28-64): one credential entry per kept
secret line; entry `index` gets `proxies[index % proxies.length]` when any
proxies were loaded, else `null`. -/
def loadPrivateKeysAndProxies (pkData : Str) (proxyData : Option Str) :
    List CredentialEntry :=
  let privateKeys := parsedLines pkData
  let proxies := loadedProxies proxyData
  privateKeys.mapIdx fun index pk =>
    { privateKey := pk
      proxy :=
        if h : 0 < proxies.length then
          some (proxies.get ⟨index % proxies.length, Nat.mod_lt _ h⟩)
        else none }

/-- The bot collection `start()` builds (lines 101-115): for each entry, in
order, resolve the wallet; unresolvable entries are skipped (logged), for the
rest a bot is constructed with 1-based index and pushed into `this.bots`, and
its `initialize` is kicked off. The pushed bot stays in `this.bots` whatever
`initialize` does, so the collection holds each bot in its post-initialize
state. `reg` is keyed by the bot's lowercased wallet (the wallet sent on the
check request), `stored` by the bot's session file path. -/
def startBots (derive : Str → Option Str)
    (reg : Str → Except Unit RegResponse)
    (stored : Str → Option SessionRecord)
    (now : Int) (rootDir : Str) (entries : List CredentialEntry) :
    List BotState :=
  (entries.mapIdx fun i item =>
    match getWalletFromPrivateKey derive item.privateKey with
    | none => none
    | some w =>
        let bot := KaleidoMiningBot.new rootDir w (i + 1) item.proxy
        some (KaleidoMiningBot.initMining (reg bot.wallet)
          (stored bot.sessionFile) now bot)).reduceOption

/-- Value of the map callback `try { return bot.stop(); } catch (err)
{ return 0; }` (lines 153-160) as a function of the stop outcome. Calling
the `async` `stop()` never throws synchronously, so the catch branch (the
0) is dead code at runtime: a rejecting `stop()` does not reach it but
rejects the whole `Promise.all` instead — see `promiseAll` and
`shutdownRun` for that path. On the live path `stopPaid` is simply the
resolved value. -/
def stopPaid (stopResult : BotState → Except Unit Rat) (b : BotState) : Rat :=
  match stopResult b with
  | .ok v => v
  | .error _ => 0

/-- Outcome of the SIGINT shutdown path (lines 152-172): the bots `stop()`
was invoked on, in order; `this.totalPaid` as reduced from the collected
values; and the `Total Wallets` count the final summary prints. -/
structure ShutdownSummary where
  stoppedBots : List BotState
  totalPaid : Rat
  totalWallets : Nat
deriving Repr, DecidableEq

/-- The stop-and-aggregate summary built when the shutdown's `Promise.all`
resolved (lines 152-172): `stop()` mapped over all of `this.bots`, the
values reduced with `+` from 0, and `this.bots.length` as the printed
wallet count. `shutdownRun` gives the handler's full outcome including the
rejection path that skips this aggregation. -/
def shutdown (bots : List BotState)
    (stopResult : BotState → Except Unit Rat) : ShutdownSummary :=
  let paidValues := bots.map (stopPaid stopResult)
  { stoppedBots := bots
    totalPaid := paidValues.foldl (· + ·) 0
    totalWallets := bots.length }

/-- Model of `Promise.all` (line 152) over the settled outcomes of the
mapped promises: it resolves with the list of values when every promise
resolved, and rejects as soon as any promise rejected. -/
def promiseAll {ε α : Type} : List (Except ε α) → Except ε (List α)
  | [] => .ok []
  | .ok v :: rest => (promiseAll rest).map fun vs => v :: vs
  | .error e :: _ => .error e

/-- Outcome of the SIGINT handler (lines 144-180): either `Promise.all`
resolved, the totals were aggregated and the summary printed with exit
status 0, or a rejection reached the outer catch (lines 176-179), which
calls `process.exit(1)` with no aggregation and no summary. -/
inductive ShutdownOutcome where
  | summary (s : ShutdownSummary) : ShutdownOutcome
  | failedExit : ShutdownOutcome
deriving Repr, DecidableEq

/-- The shutdown handler's full stop-and-aggregate path (lines 144-180).
The map callback wraps `bot.stop()` in `try/catch`, but `stop()` is an
`async` method: calling it never throws synchronously, so that catch never
fires and a rejecting `stop()` rejects the `Promise.all` itself; the
rejection lands in the outer catch, which exits with status 1 without
aggregating. Only when every stop resolved are the values reduced and the
summary printed. -/
def shutdownRun (bots : List BotState)
    (stopResult : BotState → Except Unit Rat) : ShutdownOutcome :=
  match promiseAll (bots.map stopResult) with
  | .ok _ => .summary (shutdown bots stopResult)
  | .error _ => .failedExit

end MiningCoordinator

/-- A list of rationals is non-decreasing at every pair of consecutive
entries (executable form of the monotonicity invariant). -/
def nonDecreasing : List Rat → Bool
  | [] => true
  | [_] => true
  | a :: b :: rest => decide (a ≤ b) && nonDecreasing (b :: rest)

/-- `stop()` (lines 469-483): clear `isActive` (ending the report loop),
run one final `updateBalance(true)`, persist via `saveSession`, and return
`currentEarnings.total`; the method's own catch returns
`currentEarnings.total` as well, so the promise `stop()` returns always
resolves — within this repository an agent's stop can never trigger the
rejection path of the Coordinator's `Promise.all`. -/
def KaleidoMiningBot.stop (now : Int) (resp : Except Unit UpdateResponse)
    (b : BotState) (store : Option SessionRecord) :
    Rat × BotState × Option SessionRecord :=
  let b0 := { b with miningState := { b.miningState with isActive := false } }
  let u := updateBalance now resp b0 store
  (u.bot.currentEarnings.total, u.bot, some (saveSession u.bot))

open KaleidoMiningBot MiningCoordinator

/-- C1: when the registration check succeeds for an agent, then — whatever
balance and referral bonus the registration response carries — if a session
record exists the `Active` state's `startTime`, `earnings` (hence
`earnings.total`) and `referralBonus` are exactly the stored record's
values; if none exists, `earnings.total` is the response's balance (0 when
absent), `referralBonus` the response's referral bonus (0 when absent), and
`startTime` is the current instant. -/
theorem initMining_reconciliation (b : BotState) (r : RegResponse)
    (stored : Option SessionRecord) (now : Int) (hreg : r.isRegistered = true) :
    (∀ s, stored = some s →
      (initMining (.ok r) stored now b).miningState.isActive = true ∧
      (initMining (.ok r) stored now b).miningState.startTime = s.startTime ∧
      (initMining (.ok r) stored now b).currentEarnings = s.earnings ∧
      (initMining (.ok r) stored now b).referralBonus = s.referralBonus) ∧
    (stored = none →
      (initMining (.ok r) stored now b).miningState.isActive = true ∧
      (initMining (.ok r) stored now b).miningState.startTime = some now ∧
      (initMining (.ok r) stored now b).currentEarnings.total
        = (r.userData.bind RegUserData.balance).getD 0 ∧
      (initMining (.ok r) stored now b).referralBonus
        = (r.userData.bind RegUserData.referralBonus).getD 0) := by
  constructor
  · rintro s rfl
    simp [initMining, loadSession, hreg]
  · rintro rfl
    simp [initMining, loadSession, hreg]

/-- Witness for C1 at a concrete agent, registration response and stored
record (session present) and at the same response with no record. -/
theorem initMining_reconciliation_witness :
    (RegResponse.mk true (some ⟨some 9, some 2⟩)).isRegistered = true ∧
    ((∀ s, (some (SessionRecord.mk (some 5) ⟨3⟩ 1) : Option SessionRecord) = some s →
      (initMining (.ok ⟨true, some ⟨some 9, some 2⟩⟩)
        (some ⟨some 5, ⟨3⟩, 1⟩) 100 (KaleidoMiningBot.new ['r'] ['0','x','A'] 1 none)).miningState.isActive = true ∧
      (initMining (.ok ⟨true, some ⟨some 9, some 2⟩⟩)
        (some ⟨some 5, ⟨3⟩, 1⟩) 100 (KaleidoMiningBot.new ['r'] ['0','x','A'] 1 none)).miningState.startTime = s.startTime ∧
      (initMining (.ok ⟨true, some ⟨some 9, some 2⟩⟩)
        (some ⟨some 5, ⟨3⟩, 1⟩) 100 (KaleidoMiningBot.new ['r'] ['0','x','A'] 1 none)).currentEarnings = s.earnings ∧
      (initMining (.ok ⟨true, some ⟨some 9, some 2⟩⟩)
        (some ⟨some 5, ⟨3⟩, 1⟩) 100 (KaleidoMiningBot.new ['r'] ['0','x','A'] 1 none)).referralBonus = s.referralBonus) ∧
    ((some (SessionRecord.mk (some 5) ⟨3⟩ 1) : Option SessionRecord) = none →
      (initMining (.ok ⟨true, some ⟨some 9, some 2⟩⟩)
        (some ⟨some 5, ⟨3⟩, 1⟩) 100 (KaleidoMiningBot.new ['r'] ['0','x','A'] 1 none)).miningState.isActive = true ∧
      (initMining (.ok ⟨true, some ⟨some 9, some 2⟩⟩)
        (some ⟨some 5, ⟨3⟩, 1⟩) 100 (KaleidoMiningBot.new ['r'] ['0','x','A'] 1 none)).miningState.startTime = some 100 ∧
      (initMining (.ok ⟨true, some ⟨some 9, some 2⟩⟩)
        (some ⟨some 5, ⟨3⟩, 1⟩) 100 (KaleidoMiningBot.new ['r'] ['0','x','A'] 1 none)).currentEarnings.total
        = ((RegResponse.mk true (some ⟨some 9, some 2⟩)).userData.bind RegUserData.balance).getD 0 ∧
      (initMining (.ok ⟨true, some ⟨some 9, some 2⟩⟩)
        (some ⟨some 5, ⟨3⟩, 1⟩) 100 (KaleidoMiningBot.new ['r'] ['0','x','A'] 1 none)).referralBonus
        = ((RegResponse.mk true (some ⟨some 9, some 2⟩)).userData.bind RegUserData.referralBonus).getD 0)) :=
  ⟨rfl, initMining_reconciliation (KaleidoMiningBot.new ['r'] ['0','x','A'] 1 none)
    ⟨true, some ⟨some 9, some 2⟩⟩ (some ⟨some 5, ⟨3⟩, 1⟩) 100 rfl⟩

/-- C2: a successful balance update (delivered response with
`success = true` and balance `b`) makes `earnings.total` exactly the
server-returned balance — not the previous local total plus the locally
computed session-delta when those disagree — and persists the session
record carrying that total. -/
theorem updateBalance_adopts_server_total (now : Int) (r : UpdateResponse)
    (b : BotState) (store : Option SessionRecord) (hs : r.success = true) :
    (updateBalance now (.ok r) b store).bot.currentEarnings.total = r.balance ∧
    (updateBalance now (.ok r) b store).saved = true ∧
    (updateBalance now (.ok r) b store).store
      = some (saveSession (updateBalance now (.ok r) b store).bot) ∧
    (saveSession (updateBalance now (.ok r) b store).bot).earnings.total = r.balance ∧
    (b.currentEarnings.total + (updateBalance now (.ok r) b store).submittedSession
        ≠ r.balance →
      (updateBalance now (.ok r) b store).bot.currentEarnings.total
        ≠ b.currentEarnings.total
            + (updateBalance now (.ok r) b store).submittedSession) := by
  refine ⟨?_, ?_, ?_, ?_, ?_⟩ <;>
    simp [updateBalance, calculateSessionEarnings, saveSession, hs]
  intro hne heq
  exact hne heq.symm

/-- Witness for C2 at a concrete state, instant and server response. -/
theorem updateBalance_adopts_server_total_witness :
    (UpdateResponse.mk true 7).success = true ∧
    (updateBalance 50 (.ok ⟨true, 7⟩)
        (KaleidoMiningBot.new ['r'] ['0','x','A'] 1 none) none).bot.currentEarnings.total
      = (UpdateResponse.mk true 7).balance ∧
    (updateBalance 50 (.ok ⟨true, 7⟩)
        (KaleidoMiningBot.new ['r'] ['0','x','A'] 1 none) none).saved = true ∧
    (updateBalance 50 (.ok ⟨true, 7⟩)
        (KaleidoMiningBot.new ['r'] ['0','x','A'] 1 none) none).store
      = some (saveSession (updateBalance 50 (.ok ⟨true, 7⟩)
          (KaleidoMiningBot.new ['r'] ['0','x','A'] 1 none) none).bot) ∧
    (saveSession (updateBalance 50 (.ok ⟨true, 7⟩)
        (KaleidoMiningBot.new ['r'] ['0','x','A'] 1 none) none).bot).earnings.total
      = (UpdateResponse.mk true 7).balance := by
  have h := updateBalance_adopts_server_total 50 ⟨true, 7⟩
    (KaleidoMiningBot.new ['r'] ['0','x','A'] 1 none) none rfl
  exact ⟨rfl, h.1, h.2.1, h.2.2.1, h.2.2.2.1⟩

/-- Frame facts shared by the failure-path theorems: a rejected update
leaves earnings, session file, save flag and activity flag unchanged. -/
theorem updateBalance_rejected_aux (now : Int)
    (resp : Except Unit UpdateResponse) (b : BotState)
    (store : Option SessionRecord) (hfail : updateRejected resp = true) :
    (updateBalance now resp b store).bot.currentEarnings = b.currentEarnings ∧
    (updateBalance now resp b store).store = store ∧
    (updateBalance now resp b store).saved = false ∧
    (updateBalance now resp b store).bot.miningState.isActive
      = b.miningState.isActive := by
  cases resp with
  | error e => simp [updateBalance, calculateSessionEarnings]
  | ok r =>
      have hr : r.success = false := by
        simpa [updateRejected] using hfail
      simp [updateBalance, calculateSessionEarnings, hr]

/-- C7: a balance update that fails (retries exhausted, or the server
replied `success = false`) persists nothing for that cycle, leaves
`earnings` (hence `earnings.total`) untouched, leaves `isActive` untouched,
and so the report loop's guard still holds afterwards: the loop continues
instead of terminating the agent. -/
theorem updateBalance_failure_frame (now : Int)
    (resp : Except Unit UpdateResponse) (b : BotState)
    (store : Option SessionRecord) (hfail : updateRejected resp = true) :
    (updateBalance now resp b store).bot.currentEarnings = b.currentEarnings ∧
    (updateBalance now resp b store).store = store ∧
    (updateBalance now resp b store).saved = false ∧
    (updateBalance now resp b store).bot.miningState.isActive
      = b.miningState.isActive ∧
    (b.miningState.isActive = true →
      miningLoopContinues (updateBalance now resp b store).bot = true) := by
  obtain ⟨h1, h2, h3, h4⟩ := updateBalance_rejected_aux now resp b store hfail
  exact ⟨h1, h2, h3, h4, fun hact => by rw [miningLoopContinues, h4, hact]⟩

/-- Witness for C7 at a concrete active agent, a stored record and a
response with `success = false`. -/
theorem updateBalance_failure_frame_witness :
    updateRejected (.ok ⟨false, 7⟩) = true ∧
    (updateBalance 50 (.ok ⟨false, 7⟩)
        (initMining (.ok ⟨true, none⟩) (some ⟨some 5, ⟨3⟩, 1⟩) 10
          (KaleidoMiningBot.new ['r'] ['0','x','A'] 1 none))
        (some ⟨some 5, ⟨3⟩, 1⟩)).bot.currentEarnings
      = (initMining (.ok ⟨true, none⟩) (some ⟨some 5, ⟨3⟩, 1⟩) 10
          (KaleidoMiningBot.new ['r'] ['0','x','A'] 1 none)).currentEarnings ∧
    (updateBalance 50 (.ok ⟨false, 7⟩)
        (initMining (.ok ⟨true, none⟩) (some ⟨some 5, ⟨3⟩, 1⟩) 10
          (KaleidoMiningBot.new ['r'] ['0','x','A'] 1 none))
        (some ⟨some 5, ⟨3⟩, 1⟩)).store = some ⟨some 5, ⟨3⟩, 1⟩ ∧
    (updateBalance 50 (.ok ⟨false, 7⟩)
        (initMining (.ok ⟨true, none⟩) (some ⟨some 5, ⟨3⟩, 1⟩) 10
          (KaleidoMiningBot.new ['r'] ['0','x','A'] 1 none))
        (some ⟨some 5, ⟨3⟩, 1⟩)).saved = false ∧
    miningLoopContinues (updateBalance 50 (.ok ⟨false, 7⟩)
        (initMining (.ok ⟨true, none⟩) (some ⟨some 5, ⟨3⟩, 1⟩) 10
          (KaleidoMiningBot.new ['r'] ['0','x','A'] 1 none))
        (some ⟨some 5, ⟨3⟩, 1⟩)).bot = true := by
  have h := updateBalance_failure_frame 50 (.ok ⟨false, 7⟩)
    (initMining (.ok ⟨true, none⟩) (some ⟨some 5, ⟨3⟩, 1⟩) 10
      (KaleidoMiningBot.new ['r'] ['0','x','A'] 1 none))
    (some ⟨some 5, ⟨3⟩, 1⟩) (by decide)
  exact ⟨by decide, h.1, h.2.1, h.2.2.1, h.2.2.2.2 (by decide)⟩

/-- C10: every `updateBalance` cycle advances `miningState.lastUpdate` to
the current instant before the submission outcome is known, so a failed
cycle keeps the new `lastUpdate` while `earnings` and the session file stay
unchanged; consequently the next cycle's submitted session-delta covers
only the window since this cycle's instant — the failed window's delta is
never recomputed or re-submitted. -/
theorem updateBalance_advances_lastUpdate (now now2 : Int)
    (resp resp2 : Except Unit UpdateResponse) (b : BotState)
    (store : Option SessionRecord) :
    (updateBalance now resp b store).bot.miningState.lastUpdate = some now ∧
    (updateRejected resp = true →
      (updateBalance now resp b store).bot.currentEarnings = b.currentEarnings ∧
      (updateBalance now resp b store).store = store) ∧
    (updateBalance now2 resp2 (updateBalance now resp b store).bot
        (updateBalance now resp b store).store).submittedSession
      = b.hashrate * (((now2 - now : Int) : Rat) / 1000)
          * MINING_CONFIG.EARNINGS_RATE * (1 + b.referralBonus) := by
  refine ⟨?_, fun hfail => ⟨(updateBalance_rejected_aux now resp b store hfail).1,
    (updateBalance_rejected_aux now resp b store hfail).2.1⟩, ?_⟩
  · cases resp with
    | error e => simp [updateBalance, calculateSessionEarnings]
    | ok r =>
        by_cases hr : r.success <;>
          simp [updateBalance, calculateSessionEarnings, hr]
  · cases resp with
    | error e =>
        cases resp2 with
        | error e2 => simp [updateBalance, calculateSessionEarnings]
        | ok r2 =>
            by_cases hr2 : r2.success <;>
              simp [updateBalance, calculateSessionEarnings, hr2]
    | ok r =>
        by_cases hr : r.success <;>
        · cases resp2 with
          | error e2 => simp [updateBalance, calculateSessionEarnings, hr]
          | ok r2 =>
              by_cases hr2 : r2.success <;>
                simp [updateBalance, calculateSessionEarnings, hr, hr2]

/-- Witness for C10 at a concrete agent, a failed first cycle and a second
cycle. -/
theorem updateBalance_advances_lastUpdate_witness :
    (updateBalance 50 (.error ())
        (KaleidoMiningBot.new ['r'] ['0','x','A'] 1 none) none).bot.miningState.lastUpdate
      = some 50 ∧
    (updateRejected (.error ()) = true →
      (updateBalance 50 (.error ())
          (KaleidoMiningBot.new ['r'] ['0','x','A'] 1 none) none).bot.currentEarnings
        = (KaleidoMiningBot.new ['r'] ['0','x','A'] 1 none).currentEarnings ∧
      (updateBalance 50 (.error ())
          (KaleidoMiningBot.new ['r'] ['0','x','A'] 1 none) none).store = none) ∧
    (updateBalance 80 (.ok ⟨true, 7⟩)
        (updateBalance 50 (.error ())
          (KaleidoMiningBot.new ['r'] ['0','x','A'] 1 none) none).bot
        (updateBalance 50 (.error ())
          (KaleidoMiningBot.new ['r'] ['0','x','A'] 1 none) none).store).submittedSession
      = (KaleidoMiningBot.new ['r'] ['0','x','A'] 1 none).hashrate
          * (((80 - 50 : Int) : Rat) / 1000) * MINING_CONFIG.EARNINGS_RATE
          * (1 + (KaleidoMiningBot.new ['r'] ['0','x','A'] 1 none).referralBonus) :=
  updateBalance_advances_lastUpdate 50 80 (.error ()) (.ok ⟨true, 7⟩)
    (KaleidoMiningBot.new ['r'] ['0','x','A'] 1 none) none

/-- Counterexample to C3 as stated: two consecutive successful updates with
server-returned balances 5 then 3 leave the totals trace `[5, 3]`, which
decreases — `earnings.total` is not non-decreasing for arbitrary
server-returned balances, because a successful update overwrites the total
with whatever balance the server returned. -/
theorem totalsTrace_decreasing_example :
    totalsTrace (KaleidoMiningBot.new ['r'] ['0','x','A'] 1 none) none
        [(1000, .ok ⟨true, 5⟩), (2000, .ok ⟨true, 3⟩)] = [5, 3] ∧
    nonDecreasing
        (totalsTrace (KaleidoMiningBot.new ['r'] ['0','x','A'] 1 none) none
          [(1000, .ok ⟨true, 5⟩), (2000, .ok ⟨true, 3⟩)]) = false := by
  constructor
  · decide
  · decide

/-- Across successful updates the observed totals are exactly the
server-returned balances, whatever the local state. -/
theorem totalsTrace_eq_serverBalances
    (events : List (Int × Except Unit UpdateResponse))
    (hsucc : ∀ e ∈ events, ∃ r, e.2 = Except.ok r ∧ r.success = true) :
    ∀ (b : BotState) (store : Option SessionRecord),
      totalsTrace b store events = serverBalances events := by
  induction events with
  | nil => intro b store; rfl
  | cons e rest ih =>
      intro b store
      obtain ⟨r, he, hr⟩ := hsucc e (List.mem_cons_self e rest)
      obtain ⟨now, resp⟩ := e
      simp only at he
      subst he
      simp [totalsTrace, serverBalances, updateBalance,
        calculateSessionEarnings, hr,
        ih (fun e he => hsucc e (List.mem_cons_of_mem _ he))]

/-- C3 amended: across any sequence of successful balance updates,
`earnings.total` after each update equals that update's server-returned
balance; consequently the totals never decrease exactly when the
server-returned balances themselves never decrease — monotonicity holds
provided the server's balances are non-decreasing, not for arbitrary
server-returned balances. -/
theorem totalsTrace_monotone_of_server_monotone (b : BotState)
    (store : Option SessionRecord)
    (events : List (Int × Except Unit UpdateResponse))
    (hsucc : ∀ e ∈ events, ∃ r, e.2 = Except.ok r ∧ r.success = true)
    (hmono : nonDecreasing (serverBalances events) = true) :
    totalsTrace b store events = serverBalances events ∧
    nonDecreasing (totalsTrace b store events) = true := by
  refine ⟨totalsTrace_eq_serverBalances events hsucc b store, ?_⟩
  rw [totalsTrace_eq_serverBalances events hsucc b store]
  exact hmono

/-- Witness for the amended C3 at a concrete agent and two successful
updates with non-decreasing server balances. -/
theorem totalsTrace_monotone_of_server_monotone_witness :
    (∀ e ∈ [((1000 : Int), (Except.ok ⟨true, 2⟩ : Except Unit UpdateResponse)),
            (2000, Except.ok ⟨true, 5⟩)],
      ∃ r, e.2 = Except.ok r ∧ r.success = true) ∧
    nonDecreasing
      (serverBalances [((1000 : Int), (Except.ok ⟨true, 2⟩ : Except Unit UpdateResponse)),
        (2000, Except.ok ⟨true, 5⟩)]) = true ∧
    (totalsTrace (KaleidoMiningBot.new ['r'] ['0','x','A'] 1 none) none
        [((1000 : Int), (Except.ok ⟨true, 2⟩ : Except Unit UpdateResponse)),
          (2000, Except.ok ⟨true, 5⟩)]
      = serverBalances [((1000 : Int), (Except.ok ⟨true, 2⟩ : Except Unit UpdateResponse)),
          (2000, Except.ok ⟨true, 5⟩)] ∧
    nonDecreasing
      (totalsTrace (KaleidoMiningBot.new ['r'] ['0','x','A'] 1 none) none
        [((1000 : Int), (Except.ok ⟨true, 2⟩ : Except Unit UpdateResponse)),
          (2000, Except.ok ⟨true, 5⟩)]) = true) := by
  have hsucc : ∀ e ∈ [((1000 : Int), (Except.ok ⟨true, 2⟩ : Except Unit UpdateResponse)),
      (2000, Except.ok ⟨true, 5⟩)], ∃ r, e.2 = Except.ok r ∧ r.success = true := by
    intro e he
    rcases List.mem_cons.mp he with rfl | he
    · exact ⟨_, rfl, rfl⟩
    rcases List.mem_cons.mp he with rfl | he
    · exact ⟨_, rfl, rfl⟩
    · cases he
  exact ⟨hsucc, by decide,
    totalsTrace_monotone_of_server_monotone
      (KaleidoMiningBot.new ['r'] ['0','x','A'] 1 none) none _ hsucc (by decide)⟩

/-- The shutdown aggregate, as a sum: `reduce((s, p) => s + p, 0)` over the
collected per-agent values equals the list sum. -/
theorem shutdown_totalPaid_eq_sum (bots : List BotState)
    (stopResult : BotState → Except Unit Rat) :
    (MiningCoordinator.shutdown bots stopResult).totalPaid
      = (bots.map (stopPaid stopResult)).sum := by
  simp [MiningCoordinator.shutdown, List.sum_eq_foldl]

/-- Counterexample to C5 as stated: two agents, the first's `stop()`
resolving with 5, the second's rejecting. The claim predicts the shutdown
completes with an aggregate of `5 + 0`; but calling the `async` `stop()`
never throws synchronously, so the map-level catch cannot substitute a 0:
the rejection rejects `Promise.all` and lands in the outer catch, which
exits the process with status 1 — no aggregate is formed and the other
agent's shutdown is aborted with it. -/
theorem shutdownRun_abort_example :
    (fun b : BotState =>
        if b.botIndex = 2 then (Except.error () : Except Unit Rat) else .ok 5)
      (KaleidoMiningBot.new ['r'] ['0','x','A'] 1 none) = .ok 5 ∧
    shutdownRun
        [KaleidoMiningBot.new ['r'] ['0','x','A'] 1 none,
          KaleidoMiningBot.new ['r'] ['0','x','B'] 2 none]
        (fun b => if b.botIndex = 2 then .error () else .ok 5)
      = .failedExit := by
  refine ⟨by decide, by decide⟩

/-- When each listed agent's stop resolved with the corresponding value,
the whole `Promise.all` resolves with the value list. -/
theorem promiseAll_ok_of_forall₂ (stopResult : BotState → Except Unit Rat) :
    ∀ (bots : List BotState) (vals : List Rat),
      List.Forall₂ (fun b v => stopResult b = Except.ok v) bots vals →
      promiseAll (bots.map stopResult) = Except.ok vals := by
  intro bots vals h
  induction h with
  | nil => rfl
  | cons hbv _ ih => simp [promiseAll, hbv, ih, Except.map]

/-- When each listed agent's stop resolved with the corresponding value,
the collected per-agent amounts are exactly those values. -/
theorem map_stopPaid_of_forall₂ (stopResult : BotState → Except Unit Rat) :
    ∀ (bots : List BotState) (vals : List Rat),
      List.Forall₂ (fun b v => stopResult b = Except.ok v) bots vals →
      bots.map (stopPaid stopResult) = vals := by
  intro bots vals h
  induction h with
  | nil => rfl
  | cons hbv _ ih => simp [stopPaid, hbv, ih]

/-- A rejection anywhere among the mapped promises rejects the whole
`Promise.all`. -/
theorem promiseAll_error_of_mem {ε α : Type} :
    ∀ (l : List (Except ε α)) (e : ε), Except.error e ∈ l →
      ∃ e2, promiseAll l = Except.error e2 := by
  intro l
  induction l with
  | nil => intro e h; cases h
  | cons x rest ih =>
      intro e h
      cases x with
      | error e0 => exact ⟨e0, rfl⟩
      | ok v =>
          rcases List.mem_cons.mp h with h1 | h2
          · simp at h1
          · obtain ⟨e2, he2⟩ := ih e h2
            exact ⟨e2, by simp [promiseAll, he2, Except.map]⟩

/-- C5 amended: when every agent's `stop()` resolves with values
`[v1..vn]`, the shutdown completes with the summary and the aggregated
`totalPaid` equals exactly `v1 + ... + vn`; an agent whose `stop()`
rejects instead rejects `Promise.all` into the outer catch, which exits
with status 1 and aggregates nothing — the map-level catch's
zero-substitution never executes because calling the `async` `stop()`
cannot throw synchronously. Within this repository the rejection path is
unreachable from the agents: the embedded `stop()` always resolves with
the agent's best-known total, so the summary path is always taken. -/
theorem shutdownRun_spec (bots : List BotState)
    (stopResult : BotState → Except Unit Rat) :
    (∀ vals : List Rat,
      List.Forall₂ (fun b v => stopResult b = Except.ok v) bots vals →
      shutdownRun bots stopResult
        = .summary { stoppedBots := bots, totalPaid := vals.sum,
                     totalWallets := bots.length }) ∧
    (∀ b ∈ bots, ∀ e, stopResult b = Except.error e →
      shutdownRun bots stopResult = .failedExit) ∧
    (∀ (nowF : BotState → Int) (respF : BotState → Except Unit UpdateResponse)
        (storeF : BotState → Option SessionRecord),
      shutdownRun bots
          (fun b => Except.ok (KaleidoMiningBot.stop (nowF b) (respF b) b (storeF b)).1)
        = .summary (MiningCoordinator.shutdown bots
            (fun b => Except.ok (KaleidoMiningBot.stop (nowF b) (respF b) b (storeF b)).1))) := by
  refine ⟨?_, ?_, ?_⟩
  · intro vals h
    have h1 := promiseAll_ok_of_forall₂ stopResult bots vals h
    have h2 := map_stopPaid_of_forall₂ stopResult bots vals h
    have h3 : MiningCoordinator.shutdown bots stopResult
        = { stoppedBots := bots, totalPaid := vals.sum,
            totalWallets := bots.length } := by
      rw [show MiningCoordinator.shutdown bots stopResult
          = { stoppedBots := bots,
              totalPaid := (bots.map (stopPaid stopResult)).foldl (· + ·) 0,
              totalWallets := bots.length } from rfl,
        ← List.sum_eq_foldl, h2]
    simp only [shutdownRun, h1, h3]
  · intro b hb e he
    have hmem : Except.error e ∈ bots.map stopResult := by
      rw [← he]
      exact List.mem_map_of_mem stopResult hb
    obtain ⟨e2, he2⟩ := promiseAll_error_of_mem (bots.map stopResult) e hmem
    simp [shutdownRun, he2]
  · intro nowF respF storeF
    have h1 : promiseAll (bots.map fun b =>
        (Except.ok (KaleidoMiningBot.stop (nowF b) (respF b) b (storeF b)).1
          : Except Unit Rat))
        = Except.ok (bots.map fun b =>
            (KaleidoMiningBot.stop (nowF b) (respF b) b (storeF b)).1) := by
      induction bots with
      | nil => rfl
      | cons x rest ih => simp [promiseAll, ih, Except.map]
    simp only [shutdownRun, h1]

/-- Witness for the amended C5 at two concrete agents whose stops resolve
with 3 each: the summary is produced and the aggregate is the sum of the
resolved values. -/
theorem shutdownRun_spec_witness :
    List.Forall₂
      (fun (b : BotState) (v : Rat) =>
        (fun _ : BotState => (Except.ok 3 : Except Unit Rat)) b = Except.ok v)
      [KaleidoMiningBot.new ['r'] ['0','x','A'] 1 none,
        KaleidoMiningBot.new ['r'] ['0','x','B'] 2 none]
      [3, 3] ∧
    shutdownRun
        [KaleidoMiningBot.new ['r'] ['0','x','A'] 1 none,
          KaleidoMiningBot.new ['r'] ['0','x','B'] 2 none]
        (fun _ => Except.ok 3)
      = .summary
          { stoppedBots :=
              [KaleidoMiningBot.new ['r'] ['0','x','A'] 1 none,
                KaleidoMiningBot.new ['r'] ['0','x','B'] 2 none]
            totalPaid := List.sum [3, 3]
            totalWallets :=
              (List.length
                [KaleidoMiningBot.new ['r'] ['0','x','A'] 1 none,
                  KaleidoMiningBot.new ['r'] ['0','x','B'] 2 none]) } := by
  have hf : List.Forall₂
      (fun (b : BotState) (v : Rat) =>
        (fun _ : BotState => (Except.ok 3 : Except Unit Rat)) b = Except.ok v)
      [KaleidoMiningBot.new ['r'] ['0','x','A'] 1 none,
        KaleidoMiningBot.new ['r'] ['0','x','B'] 2 none]
      [3, 3] :=
    List.Forall₂.cons rfl (List.Forall₂.cons rfl List.Forall₂.nil)
  exact ⟨hf, (shutdownRun_spec
    [KaleidoMiningBot.new ['r'] ['0','x','A'] 1 none,
      KaleidoMiningBot.new ['r'] ['0','x','B'] 2 none]
    (fun _ => Except.ok 3)).1 [3, 3] hf⟩

/-- When every attempt in the loop's window fails, `retryRequestGo` makes
exactly `r` invocations, returns the last attempt's failure, and sleeps
`2000 * (absolute attempt index)` ms after each non-final failed attempt. -/
theorem retryRequestGo_all_fail {ε α : Type} (f : Nat → Except ε α) (r : Nat) :
    ∀ i : Nat, 1 ≤ r → (∀ j, j < r → ∃ e, f (i + j) = Except.error e) →
      retryRequestGo f i r
        = (some (f (i + r - 1)), r,
            (List.range' (i + 1) (r - 1)).map fun a => 2000 * a) := by
  induction r with
  | zero => intro i h1; omega
  | succ r ih =>
      intro i h1 hfail
      obtain ⟨e0, he0⟩ := hfail 0 (by omega)
      rw [Nat.add_zero] at he0
      by_cases hr : r = 0
      · subst hr
        simp [retryRequestGo, he0]
      · have hfail' : ∀ j, j < r → ∃ e, f (i + 1 + j) = Except.error e := by
          intro j hj
          obtain ⟨e, he⟩ := hfail (j + 1) (by omega)
          exact ⟨e, by rw [← he]; ring_nf⟩
        have hrec := ih (i + 1) (by omega) hfail'
        obtain ⟨r', rfl⟩ : ∃ r', r = r' + 1 := ⟨r - 1, by omega⟩
        have step : retryRequestGo f i (r' + 1 + 1)
            = (match retryRequestGo f (i + 1) (r' + 1) with
               | (res, count, delays) =>
                   (res, count + 1, 2000 * (i + 1) :: delays)) := by
          simp [retryRequestGo, he0]
        have h1 : i + 1 + (r' + 1) - 1 = i + (r' + 1 + 1) - 1 := by omega
        have h2 : r' + 1 + 1 - 1 = r' + 1 := by omega
        rw [step, hrec, h1, h2, List.range'_succ, List.map_cons]
        simp

/-- When the first `k` attempts fail and attempt `k` (0-based, within the
budget) succeeds, the loop stops right there: `k + 1` invocations, the
success returned, one sleep after each of the `k` failures. -/
theorem retryRequestGo_first_ok {ε α : Type} (f : Nat → Except ε α) (k : Nat) :
    ∀ (i r : Nat) (a : α), k < r → f (i + k) = Except.ok a →
      (∀ j, j < k → ∃ e, f (i + j) = Except.error e) →
      retryRequestGo f i r
        = (some (.ok a), k + 1, (List.range' (i + 1) k).map fun a => 2000 * a) := by
  induction k with
  | zero =>
      intro i r a hk hok _
      obtain ⟨r', rfl⟩ : ∃ r', r = r' + 1 := ⟨r - 1, by omega⟩
      rw [Nat.add_zero] at hok
      simp [retryRequestGo, hok]
  | succ k ih =>
      intro i r a hk hok hfail
      obtain ⟨r', rfl⟩ : ∃ r', r = r' + 1 := ⟨r - 1, by omega⟩
      obtain ⟨e0, he0⟩ := hfail 0 (by omega)
      rw [Nat.add_zero] at he0
      have hok' : f (i + 1 + k) = Except.ok a := by rw [← hok]; ring_nf
      have hfail' : ∀ j, j < k → ∃ e, f (i + 1 + j) = Except.error e := by
        intro j hj
        obtain ⟨e, he⟩ := hfail (j + 1) (by omega)
        exact ⟨e, by rw [← he]; ring_nf⟩
      have hrec := ih (i + 1) r' a (by omega) hok' hfail'
      have step : retryRequestGo f i (r' + 1)
          = (match retryRequestGo f (i + 1) r' with
             | (res, count, delays) =>
                 (res, count + 1, 2000 * (i + 1) :: delays)) := by
        simp [retryRequestGo, he0, if_neg (show ¬ r' = 0 by omega)]
      rw [step, hrec, List.range'_succ, List.map_cons]

/-- C6: under the retry policy with attempt budget `n` (source default 3),
if every attempt fails the underlying request is invoked exactly `n` times
(not `n + 1`, not fewer), the `n`-th attempt's failure is the loop's
outcome (it propagates by rethrow), and the delay slept before retry
`j + 1` is `j * 2000` ms — the 1-based attempt index times the fixed base
delay; if some attempt succeeds first at 0-based index `k`, its result is
returned after exactly `k + 1` invocations. -/
theorem retryRequest_spec {ε α : Type} (f : Nat → Except ε α) (n : Nat)
    (hn : 1 ≤ n) :
    ((∀ j, j < n → ∃ e, f j = Except.error e) →
      retryRequest f n
        = (some (f (n - 1)), n, (List.range' 1 (n - 1)).map fun a => 2000 * a) ∧
      ∀ k, ∀ hk : k < ((List.range' 1 (n - 1)).map fun a => 2000 * a).length,
        ((List.range' 1 (n - 1)).map fun a => 2000 * a).get ⟨k, hk⟩
          = 2000 * (k + 1)) ∧
    (∀ k a, k < n → f k = Except.ok a → (∀ j, j < k → ∃ e, f j = Except.error e) →
      retryRequest f n
        = (some (Except.ok a), k + 1, (List.range' 1 k).map fun a => 2000 * a)) := by
  constructor
  · intro hfail
    constructor
    · have h := retryRequestGo_all_fail f n 0 hn (by simpa using hfail)
      simpa [retryRequest] using h
    · intro k hk
      simp [List.get_eq_getElem, List.getElem_range', Nat.mul_comm, Nat.add_comm]
  · intro k a hk hok hfail
    have h := retryRequestGo_first_ok f k 0 n a hk (by simpa using hok)
      (by simpa using hfail)
    simpa [retryRequest] using h

/-- Witness for C6: with a request that fails on all attempts and budget 3,
the loop invokes it exactly 3 times, surfaces the final failure, and sleeps
2000 ms then 4000 ms between attempts. -/
theorem retryRequest_spec_witness :
    1 ≤ 3 ∧
    retryRequest (fun _ => (Except.error () : Except Unit Nat)) 3
      = (some (Except.error ()), 3, [2000, 4000]) := by
  refine ⟨by decide, ?_⟩
  have h := ((retryRequest_spec (fun _ => (Except.error () : Except Unit Nat)) 3
    (by decide)).1 (fun j _ => ⟨(), rfl⟩)).1
  exact h.trans (by decide)

/-- C8: loading produces one credential entry per kept secret line
(loading succeeds regardless of the proxy source); when `M > 0` proxies
were loaded, entry `i` is assigned the proxy at index `i % M`; when the
proxy source is absent or yields zero proxies, every entry's proxy is
`null`. -/
theorem loadPrivateKeysAndProxies_spec (pkData : Str) (proxyData : Option Str)
    (i : Nat) (hi : i < (loadPrivateKeysAndProxies pkData proxyData).length) :
    (loadPrivateKeysAndProxies pkData proxyData).length
      = (parsedLines pkData).length ∧
    (∀ h : 0 < (loadedProxies proxyData).length,
      ((loadPrivateKeysAndProxies pkData proxyData).get ⟨i, hi⟩).proxy
        = some ((loadedProxies proxyData).get
            ⟨i % (loadedProxies proxyData).length, Nat.mod_lt _ h⟩)) ∧
    ((loadedProxies proxyData).length = 0 →
      ((loadPrivateKeysAndProxies pkData proxyData).get ⟨i, hi⟩).proxy = none) := by
  refine ⟨by simp [loadPrivateKeysAndProxies], ?_, ?_⟩
  · intro h
    simp [loadPrivateKeysAndProxies, List.get_eq_getElem, List.getElem_mapIdx]
    exact h
  · intro h
    simp [loadPrivateKeysAndProxies, List.get_eq_getElem, List.getElem_mapIdx, h]

/-- Witness for C8 at a concrete secrets file with three kept lines and a
proxy file with two kept lines, at entry index 2 (which wraps to proxy 0). -/
theorem loadPrivateKeysAndProxies_spec_witness :
    2 < (loadPrivateKeysAndProxies ['k','1','\n','k','2','\n','k','3']
          (some ['p','1','\n','p','2'])).length ∧
    0 < (loadedProxies (some ['p','1','\n','p','2'])).length ∧
    ((loadPrivateKeysAndProxies ['k','1','\n','k','2','\n','k','3']
        (some ['p','1','\n','p','2'])).get
          ⟨2, by decide⟩).proxy = some ['p','1'] := by
  refine ⟨by decide, by decide, ?_⟩
  have h := (loadPrivateKeysAndProxies_spec ['k','1','\n','k','2','\n','k','3']
    (some ['p','1','\n','p','2']) 2 (by decide)).2.1 (by decide)
  exact h.trans (by decide)

/-- C9 amended: the session file the agent reads and writes is
`<root>/session/<wallet>.json` where `<wallet>` is the address string
exactly as passed to the constructor (its original case, e.g. the
checksummed form produced by key derivation), while the remote correlation
key `this.wallet` is that string lowercased; the file's name stem equals
the lowercase correlation key only when the passed address is already all
lowercase. -/
theorem sessionFile_original_case (rootDir wallet : Str) (botIndex : Nat)
    (proxy : Option Str) :
    (KaleidoMiningBot.new rootDir wallet botIndex proxy).wallet
      = jsToLowerCase wallet ∧
    (KaleidoMiningBot.new rootDir wallet botIndex proxy).sessionFile
      = pathJoin (pathJoin rootDir sessionDirName) (wallet ++ jsonSuffix) ∧
    ((KaleidoMiningBot.new rootDir wallet botIndex proxy).sessionFile
        = pathJoin (pathJoin rootDir sessionDirName)
            ((KaleidoMiningBot.new rootDir wallet botIndex proxy).wallet
              ++ jsonSuffix)
      ↔ wallet = jsToLowerCase wallet) := by
  refine ⟨rfl, rfl, ?_⟩
  simp [KaleidoMiningBot.new, pathJoin]

/-- Counterexample to C9 as stated: for the mixed-case (checksummed)
address `0xAb`, the remote correlation key is the lowercase `0xab`, but the
session file is `<root>/session/0xAb.json` — its name stem is not the
lowercase identity. -/
theorem sessionFile_case_mismatch_example :
    (KaleidoMiningBot.new ['r'] ['0','x','A','b'] 1 none).wallet
      = ['0','x','a','b'] ∧
    (KaleidoMiningBot.new ['r'] ['0','x','A','b'] 1 none).sessionFile
      = ['r','/','s','e','s','s','i','o','n','/','0','x','A','b','.','j','s','o','n'] ∧
    (KaleidoMiningBot.new ['r'] ['0','x','A','b'] 1 none).sessionFile
      ≠ pathJoin (pathJoin ['r'] sessionDirName)
          ((KaleidoMiningBot.new ['r'] ['0','x','A','b'] 1 none).wallet
            ++ jsonSuffix) := by
  refine ⟨by decide, by decide, by decide⟩

/-- Counterexample to C4 as stated: one credential whose wallet resolves but
whose registration check returns `isRegistered: false`. The agent ends up
`Failed` (`isActive = false`), yet it was pushed into `this.bots` before
`initialize` ran, so the shutdown path does call its `stop()` (it is in the
stop-and-aggregate set), counts it in the printed `Total Wallets`, and its
`stop()` value (here 7) enters the aggregated final total. -/
theorem shutdown_includes_failed_example :
    ((startBots (fun _ => some ['0','x','A'])
        (fun _ => .ok ⟨false, none⟩) (fun _ => none) 0 ['r']
        [⟨['k'], none⟩]).map fun b => b.miningState.isActive) = [false] ∧
    ((MiningCoordinator.shutdown
        (startBots (fun _ => some ['0','x','A'])
          (fun _ => .ok ⟨false, none⟩) (fun _ => none) 0 ['r']
          [⟨['k'], none⟩])
        (fun _ => .ok 7)).stoppedBots.map fun b => b.miningState.isActive)
      = [false] ∧
    (MiningCoordinator.shutdown
        (startBots (fun _ => some ['0','x','A'])
          (fun _ => .ok ⟨false, none⟩) (fun _ => none) 0 ['r']
          [⟨['k'], none⟩])
        (fun _ => .ok 7)).totalWallets = 1 ∧
    (MiningCoordinator.shutdown
        (startBots (fun _ => some ['0','x','A'])
          (fun _ => .ok ⟨false, none⟩) (fun _ => none) 0 ['r']
          [⟨['k'], none⟩])
        (fun _ => .ok 7)).totalPaid = 7 := by
  refine ⟨by decide, by decide, by decide, ?_⟩
  have hmap : (startBots (fun _ => some ['0','x','A'])
      (fun _ => .ok ⟨false, none⟩) (fun _ => none) 0 ['r']
      [⟨['k'], none⟩]).map
        (stopPaid fun _ => (Except.ok 7 : Except Unit Rat)) = [7] := by decide
  calc (MiningCoordinator.shutdown
          (startBots (fun _ => some ['0','x','A'])
            (fun _ => .ok ⟨false, none⟩) (fun _ => none) 0 ['r']
            [⟨['k'], none⟩])
          (fun _ => .ok 7)).totalPaid
      = ((startBots (fun _ => some ['0','x','A'])
            (fun _ => .ok ⟨false, none⟩) (fun _ => none) 0 ['r']
            [⟨['k'], none⟩]).map
              (stopPaid fun _ => (Except.ok 7 : Except Unit Rat))).foldl (· + ·) 0 := rfl
    _ = ([(7 : Rat)]).foldl (· + ·) 0 := by rw [hmap]
    _ = 7 := by simp

/-- C4 amended: a `Failed` agent stays in the Coordinator's collection (it
was pushed before its initialization ran), so the shutdown path does call
`stop()` on it, counts it in the printed wallet total, and its stop value
enters the aggregate like any other agent's. -/
theorem shutdown_stops_all_bots (bots1 bots2 : List BotState) (b : BotState)
    (stopResult : BotState → Except Unit Rat)
    (hb : b.miningState.isActive = false) :
    (MiningCoordinator.shutdown (bots1 ++ b :: bots2) stopResult).stoppedBots
      = bots1 ++ b :: bots2 ∧
    b ∈ (MiningCoordinator.shutdown (bots1 ++ b :: bots2) stopResult).stoppedBots ∧
    (MiningCoordinator.shutdown (bots1 ++ b :: bots2) stopResult).totalWallets
      = bots1.length + (bots2.length + 1) ∧
    (MiningCoordinator.shutdown (bots1 ++ b :: bots2) stopResult).totalPaid
      = ((bots1 ++ b :: bots2).map (stopPaid stopResult)).sum := by
  refine ⟨rfl, ?_, ?_, shutdown_totalPaid_eq_sum (bots1 ++ b :: bots2) stopResult⟩
  · simp [MiningCoordinator.shutdown]
  · simp [MiningCoordinator.shutdown]

/-- Witness for the amended C4 at a concrete `Failed` agent alone in the
collection. -/
theorem shutdown_stops_all_bots_witness :
    (KaleidoMiningBot.new ['r'] ['0','x','A'] 1 none).miningState.isActive
      = false ∧
    (MiningCoordinator.shutdown
        ([] ++ KaleidoMiningBot.new ['r'] ['0','x','A'] 1 none :: [])
        (fun _ => .ok 7)).stoppedBots
      = [] ++ KaleidoMiningBot.new ['r'] ['0','x','A'] 1 none :: [] ∧
    KaleidoMiningBot.new ['r'] ['0','x','A'] 1 none ∈
      (MiningCoordinator.shutdown
        ([] ++ KaleidoMiningBot.new ['r'] ['0','x','A'] 1 none :: [])
        (fun _ => .ok 7)).stoppedBots ∧
    (MiningCoordinator.shutdown
        ([] ++ KaleidoMiningBot.new ['r'] ['0','x','A'] 1 none :: [])
        (fun _ => .ok 7)).totalWallets
      = List.length ([] : List BotState) + (List.length ([] : List BotState) + 1) := by
  have h := shutdown_stops_all_bots [] [] (KaleidoMiningBot.new ['r'] ['0','x','A'] 1 none)
    (fun _ => .ok 7) rfl
  exact ⟨rfl, h.1, h.2.1, h.2.2.1⟩
